import Mathlib

set_option maxRecDepth 8000

/-!
Shallow embedding of the AI-detection engine in src/lib/aiDetection.ts.

Strings are modelled as Lean strings, numbers as rationals, and the
JavaScript regular expressions as a small executable regex engine.
Module-level RegExp objects carry a mutable lastIndex that a g-flagged
test() reads and writes, so the engine state (one lastIndex per
g-flagged table pattern) is threaded explicitly through the functions
that the source mutates it from.
-/

/-- Character class matched by the JS regexp escape for whitespace. -/
def jsSpace (c : Char) : Bool :=
  decide (c = ' ' ∨ c = '\t' ∨ c = '\n' ∨ c = '\r' ∨ c = '\x0b' ∨ c = '\x0c' ∨
    c = ' ' ∨ c = ' ' ∨ (' ' ≤ c ∧ c ≤ ' ') ∨ c = ' ' ∨
    c = ' ' ∨ c = ' ' ∨ c = ' ' ∨ c = '　' ∨ c = '﻿')

/-- JS line terminators (what the dot does not match without the s flag). -/
def isLineTerm (c : Char) : Bool :=
  decide (c = '\n' ∨ c = '\r' ∨ c = ' ' ∨ c = ' ')

/-- Character class matched by the JS regexp escape for word characters. -/
def isWordChar (c : Char) : Bool :=
  decide (('a' ≤ c ∧ c ≤ 'z') ∨ ('A' ≤ c ∧ c ≤ 'Z') ∨ ('0' ≤ c ∧ c ≤ '9') ∨ c = '_')

/-- ASCII decimal digit. -/
def isDigitChar (c : Char) : Bool := decide ('0' ≤ c ∧ c ≤ '9')

/-- ASCII letter. -/
def isAlphaChar (c : Char) : Bool :=
  decide (('a' ≤ c ∧ c ≤ 'z') ∨ ('A' ≤ c ∧ c ≤ 'Z'))

/-- ASCII lowercase letter. -/
def isLowerChar (c : Char) : Bool := decide ('a' ≤ c ∧ c ≤ 'z')

/-- JS String.prototype.trim: strip whitespace and line terminators from
both ends (all covered by jsSpace). -/
def jsTrim (s : String) : String :=
  String.mk (((s.data.dropWhile jsSpace).reverse.dropWhile jsSpace).reverse)

/-- JS String.prototype.length counts UTF-16 code units. -/
def jsLength (s : String) : Nat :=
  (s.data.map (fun c => if c.toNat ≤ 65535 then 1 else 2)).sum

/-- Syntax of the regular expressions used by the source, as data:
character classes, sequencing, ordered alternation, greedy and lazy
star, word boundary, anchors (with their multiline flag) and negative
lookahead. -/
inductive RE where
  | eps : RE
  | cls : (Char → Bool) → RE
  | seq : RE → RE → RE
  | alt : RE → RE → RE
  | star : RE → RE
  | lstar : RE → RE
  | wordB : RE
  | bol : Bool → RE
  | eol : Bool → RE
  | nla : RE → RE

/-- Structural size of a regex, used to compute a sufficient fuel. -/
def reSize : RE → Nat
  | .eps => 1
  | .cls _ => 1
  | .seq a b => reSize a + reSize b + 1
  | .alt a b => reSize a + reSize b + 1
  | .star a => reSize a + 1
  | .lstar a => reSize a + 1
  | .wordB => 1
  | .bol _ => 1
  | .eol _ => 1
  | .nla a => reSize a + 1

/-- Is position i a word boundary of s (JS semantics)? -/
def wordBoundaryAt (s : List Char) (i : Nat) : Bool :=
  let before := match i with
    | 0 => false
    | j + 1 => match s[j]? with
      | some c => isWordChar c
      | none => false
  let after := match s[i]? with
    | some c => isWordChar c
    | none => false
  before != after

/-- Does the caret anchor hold at position i (m is the multiline flag)? -/
def bolAt (m : Bool) (s : List Char) (i : Nat) : Bool :=
  match i with
  | 0 => true
  | j + 1 => m && (match s[j]? with
      | some c => isLineTerm c
      | none => false)

/-- Does the dollar anchor hold at position i (m is the multiline flag)? -/
def eolAt (m : Bool) (s : List Char) (i : Nat) : Bool :=
  if i = s.length then true
  else m && (match s[i]? with
    | some c => isLineTerm c
    | none => false)

/-- Backtracking matcher in continuation style.  mA fuel r s i k tries
to match r in s starting at position i; on each way of matching it
calls k with the end position, and returns the first success, matching
the preference order of a JS backtracking engine (alternation tries the
left branch first, greedy star prefers one more iteration, lazy star
prefers none).  Star iterations that consume nothing are cut off, as in
JS.  Fuel bounds the derivation depth and only decreases at nodes. -/
def mA : Nat → RE → List Char → Nat → (Nat → Option Nat) → Option Nat
  | 0, _, _, _, _ => none
  | fuel + 1, r, s, i, k =>
    match r with
    | .eps => k i
    | .cls p =>
      match s[i]? with
      | some c => if p c then k (i + 1) else none
      | none => none
    | .seq a b => mA fuel a s i (fun j => mA fuel b s j k)
    | .alt a b =>
      match mA fuel a s i k with
      | some e => some e
      | none => mA fuel b s i k
    | .star a =>
      match mA fuel a s i (fun j => if j = i then none else mA fuel (.star a) s j k) with
      | some e => some e
      | none => k i
    | .lstar a =>
      match k i with
      | some e => some e
      | none => mA fuel a s i (fun j => if j = i then none else mA fuel (.lstar a) s j k)
    | .wordB => if wordBoundaryAt s i then k i else none
    | .bol m => if bolAt m s i then k i else none
    | .eol m => if eolAt m s i then k i else none
    | .nla a =>
      match mA fuel a s i (fun j => some j) with
      | some _ => none
      | none => k i

/-- Fuel sufficient for the patterns of the source on a given subject. -/
def mFuel (r : RE) (s : List Char) : Nat :=
  (reSize r + 2) * (s.length + 2) + 8

/-- Scan positions start, start+1, ... for the leftmost match; returns
(matchStart, matchEnd) of the first match found, as RegExp exec does. -/
def fmGo (r : RE) (s : List Char) : Nat → Nat → Option (Nat × Nat)
  | 0, _ => none
  | fuel + 1, i =>
    if i > s.length then none
    else
      match mA (mFuel r s) r s i (fun j => some j) with
      | some e => some (i, e)
      | none => fmGo r s fuel (i + 1)

/-- Leftmost match of r in s at a position at or after start. -/
def firstMatchFrom (r : RE) (s : List Char) (start : Nat) : Option (Nat × Nat) :=
  fmGo r s (s.length + 1 - start) start

/-- test() on a regex without the g flag: search from 0, no state. -/
def testP (r : RE) (s : String) : Bool :=
  (firstMatchFrom r s.data 0).isSome

/-- test() on a g-flagged regex: search from lastIndex; on a hit the new
lastIndex is the match end, on a miss it is reset to 0. -/
def testG (r : RE) (s : String) (li : Nat) : Bool × Nat :=
  match firstMatchFrom r s.data li with
  | some me => (true, me.2)
  | none => (false, 0)

/-- Number of matches String.prototype.match returns for a g-flagged
regex: repeated leftmost search, advancing past each match (and by one
position past an empty match). -/
def countMatchesGo (r : RE) (s : List Char) : Nat → Nat → Nat → Nat
  | 0, _, acc => acc
  | fuel + 1, pos, acc =>
    match firstMatchFrom r s pos with
    | none => acc
    | some me => countMatchesGo r s fuel (if me.2 = me.1 then me.2 + 1 else me.2) (acc + 1)

/-- Count all matches of a g-flagged regex in s. -/
def countMatches (r : RE) (s : String) : Nat :=
  countMatchesGo r s.data (s.data.length + 2) 0 0

/-- Literal character. -/
def chr (c : Char) : RE := .cls (fun x => x = c)

/-- Literal character under the i flag (ASCII case folding). -/
def chrI (c : Char) : RE := .cls (fun x => x.toLower = c.toLower)

/-- Literal string. -/
def strL : List Char → RE
  | [] => .eps
  | c :: cs => .seq (chr c) (strL cs)

/-- Literal string under the i flag. -/
def strLI : List Char → RE
  | [] => .eps
  | c :: cs => .seq (chrI c) (strLI cs)

/-- Literal string regex. -/
def strS (s : String) : RE := strL s.data

/-- Case-insensitive literal string regex. -/
def strSI (s : String) : RE := strLI s.data

/-- Ordered alternation of a list of regexes. -/
def altsR : List RE → RE
  | [] => .cls (fun _ => false)
  | [r] => r
  | r :: rs => .alt r (altsR rs)

/-- Sequence of a list of regexes. -/
def seqs : List RE → RE
  | [] => .eps
  | [r] => r
  | r :: rs => .seq r (seqs rs)

/-- One or more repetitions (greedy). -/
def plusR (r : RE) : RE := .seq r (.star r)

/-- Exactly n repetitions. -/
def repR : Nat → RE → RE
  | 0, _ => .eps
  | n + 1, r => .seq r (repR n r)

/-- At least n repetitions (greedy). -/
def atLeastR (n : Nat) (r : RE) : RE := .seq (repR n r) (.star r)

/-- Whitespace class regex. -/
def wsR : RE := .cls jsSpace

/-- Digit class regex. -/
def digitR : RE := .cls isDigitChar

/-- Word-character class regex. -/
def wordR : RE := .cls isWordChar

/-- ASCII letter class regex. -/
def alphaR : RE := .cls isAlphaChar

/-- Dot without the s flag: any character but a line terminator. -/
def dotR : RE := .cls (fun c => !isLineTerm c)

/-- Dot under the s flag (and the class of backslash-s with backslash-S):
any character. -/
def dotAllR : RE := .cls (fun _ => true)

/-- Single or double quote. -/
def quoteR : RE := .cls (fun c => decide (c = '"' ∨ c = '\''))

/-- Any character except a closing parenthesis. -/
def noParenR : RE := .cls (fun c => !decide (c = ')'))

/-- One entry of a detection table: its regex, whether the RegExp object
carries the g flag, its weight, justification text, and polarity. -/
structure DetectionPattern where
  re : RE
  global : Bool
  weight : ℚ
  reason : String
  aiIndicator : Bool

/-- Regex of the step-by-step comment rule. -/
def reStep : RE :=
  altsR [seqs [strSI ("//"), .star wsR, strSI ("Step"), .star wsR, plusR digitR, chr ':'],
    seqs [strSI ("//"), .star wsR, plusR digitR, chr '.'],
    seqs [chr '#', .star wsR, strSI ("Step"), .star wsR, plusR digitR, chr ':'],
    seqs [chr '#', .star wsR, plusR digitR, chr '.']]

/-- Regex of the verbose explanatory comment rule. -/
def reVerbose : RE :=
  seqs [chr '#', .star wsR,
    altsR [strSI ("Loop through"), strSI ("Track if"),
      seqs [strSI ("Last"), .star dotR, strSI ("elements")],
      strSI ("Swap if"), strSI ("If no"), strSI ("Example usage"),
      strSI ("Original"), strSI ("Sorted")]]

/-- Regex of the structured example usage rule. -/
def reExample : RE :=
  altsR [strSI ("Example usage"), strSI ("if __name__ == \"__main__\":"),
    strSI ("# Example"), strSI ("// Example")]

/-- Regex of the optimization comment rule. -/
def reOptim : RE :=
  altsR [seqs [chr '#', .star dotR, strSI ("already "),
      altsR [strSI ("in place"), strSI ("sorted")]],
    seqs [chr '#', .star dotR, strSI ("optimization")],
    seqs [chr '#', .star dotR, strSI ("efficient")]]

/-- Regex of the educational variable names rule. -/
def reEduVars : RE :=
  seqs [.wordB, altsR [strSI ("nums"), strSI ("arr"), strSI ("swapped"), strSI ("sorted_nums")], .wordB]

/-- Regex of the labeled output statements rule. -/
def reLabeledOut : RE :=
  .alt (seqs [strSI ("print"), .star wsR, chr '(', .star wsR, quoteR, strSI ("Original:")])
    (seqs [strSI ("print"), .star wsR, chr '(', .star wsR, quoteR, strSI ("Sorted:")])

/-- Regex of the complete function with return rule (s flag, no g). -/
def reDefReturn : RE :=
  seqs [strS ("def"), plusR wsR, plusR wordR, .star wsR, chr '(', .star noParenR,
    strS ("):"), .star wsR, chr '\n', .star dotAllR, strS ("return")]

/-- Regex of the comprehensive conditional logic rule (g and s flags). -/
def reIfElseBreak : RE :=
  seqs [strS ("if"), .star dotAllR, chr ':', .star wsR, chr '\n', .star dotAllR,
    strS ("else:"), .star wsR, chr '\n', .star dotAllR, strS ("break")]

/-- Regex of the perfect 4-space indentation rule (g and m flags). -/
def reIndent4 : RE := seqs [.bol true, strS ("    "), alphaR]

/-- Regex of the debug print rule (negative lookahead on the labels). -/
def reDebugPrint : RE :=
  seqs [strSI ("print"), .star wsR, chr '(', .star wsR,
    .nla (.alt (.seq quoteR (strSI ("Original:"))) (.seq quoteR (strSI ("Sorted:"))))]

/-- Regex of the TODO comments rule. -/
def reTodo : RE :=
  seqs [altsR [strSI ("TODO"), strSI ("FIXME"), strSI ("HACK"), strSI ("XXX"), strSI ("BUG")], chr ':']

/-- Regex of the casual comments rule (g and m flags, case-sensitive). -/
def reCasualComment : RE :=
  seqs [chr '#', .star wsR, .cls isLowerChar,
    .star (.cls (fun c => !decide (c = '.' ∨ ('A' ≤ c ∧ c ≤ 'Z')))), .eol true]

/-- Regex of the short variable names rule (case-sensitive). -/
def reShortVars : RE :=
  seqs [.wordB,
    altsR [strS ("i"), strS ("j"), strS ("k"), strS ("n"), strS ("x"), strS ("y"), strS ("z"),
      strS ("tmp"), strS ("temp"), strS ("val"), strS ("res"), strS ("data"), strS ("item")],
    .wordB]

/-- Regex of the inconsistent spacing rule. -/
def reSpacing : RE :=
  altsR [atLeastR 5 wsR, seqs [alphaR, atLeastR 2 wsR, alphaR],
    .seq (chr '\t') wsR, .seq wsR (chr '\t')]

/-- Regex of the direct assignments rule. -/
def reDirectAssign : RE :=
  seqs [plusR wordR, chr '[', plusR wordR, chr ']', .star wsR, chr '=', .star wsR,
    plusR wordR, chr '[', plusR wordR, chr ']']

/-- Regex of the hardcoded test values rule. -/
def reHardcoded : RE :=
  seqs [chr '[', .star dotR, strS ("64"), .star dotR, strS ("25"), .star dotR, strS ("12"),
    .star dotR, strS ("22"), .star dotR, strS ("11"), .star dotR, chr ']']

/-- The general detection table AI_PATTERNS, in source order. -/
def AI_PATTERNS : List DetectionPattern :=
  [{ re := reStep, global := true, weight := 9/10,
     reason := "Contains step-by-step comments typical of AI explanations", aiIndicator := true },
   { re := reVerbose, global := true, weight := 8/10,
     reason := "Contains verbose explanatory comments typical of AI generation", aiIndicator := true },
   { re := reExample, global := true, weight := 9/10,
     reason := "Contains structured example usage typical of AI tutorials", aiIndicator := true },
   { re := reOptim, global := true, weight := 8/10,
     reason := "Contains optimization comments typical of AI explanations", aiIndicator := true },
   { re := reEduVars, global := true, weight := 7/10,
     reason := "Uses educational variable names typical of AI tutorials", aiIndicator := true },
   { re := reLabeledOut, global := true, weight := 9/10,
     reason := "Contains labeled output statements typical of AI examples", aiIndicator := true },
   { re := reDefReturn, global := false, weight := 6/10,
     reason := "Contains complete function with proper return statement", aiIndicator := true },
   { re := reIfElseBreak, global := true, weight := 7/10,
     reason := "Contains comprehensive conditional logic typical of AI", aiIndicator := true },
   { re := reIndent4, global := true, weight := 3/10,
     reason := "Perfect 4-space indentation consistency", aiIndicator := true },
   { re := reDebugPrint, global := true, weight := 6/10,
     reason := "Contains debug print statements", aiIndicator := false },
   { re := reTodo, global := true, weight := 8/10,
     reason := "Contains TODO/FIXME comments indicating human planning", aiIndicator := false },
   { re := reCasualComment, global := true, weight := 4/10,
     reason := "Contains casual comments typical of human code", aiIndicator := false },
   { re := reShortVars, global := true, weight := 3/10,
     reason := "Uses short variable names common in human code", aiIndicator := false },
   { re := reSpacing, global := true, weight := 6/10,
     reason := "Has inconsistent spacing typical of human editing", aiIndicator := false },
   { re := reDirectAssign, global := true, weight := 2/10,
     reason := "Direct assignments without explanatory comments", aiIndicator := false },
   { re := reHardcoded, global := true, weight := 4/10,
     reason := "Contains hardcoded test values", aiIndicator := true }]

/-- The javascript entry of LANGUAGE_PATTERNS. -/
def JS_PATTERNS : List DetectionPattern :=
  [{ re := seqs [strS ("console.log"), chr '(', .star noParenR, chr ')'],
     global := true, weight := 2/10,
     reason := "Contains debug console.log statements", aiIndicator := false },
   { re := seqs [strS ("function"), plusR wsR, plusR wordR, .star wsR, chr '(', .star noParenR,
       chr ')', .star wsR, chr '\x7b'],
     global := true, weight := 1/10,
     reason := "Uses function declarations", aiIndicator := true }]

/-- The python entry of LANGUAGE_PATTERNS. -/
def PY_PATTERNS : List DetectionPattern :=
  [{ re := seqs [strS ("print"), chr '(', .star noParenR, chr ')'],
     global := true, weight := 2/10,
     reason := "Contains debug print statements", aiIndicator := false },
   { re := seqs [strS ("def"), plusR wsR, plusR wordR, .star wsR, chr '(', .star noParenR,
       strS ("):")],
     global := true, weight := 1/10,
     reason := "Uses function definitions", aiIndicator := true }]

/-- The typescript entry of LANGUAGE_PATTERNS. -/
def TS_PATTERNS : List DetectionPattern :=
  [{ re := seqs [chr ':', .star wsR,
       altsR [strS ("string"), strS ("number"), strS ("boolean"), strS ("any"),
         strS ("unknown"), strS ("void"), strS ("never")], .wordB],
     global := true, weight := 2/10,
     reason := "Contains explicit type annotations", aiIndicator := true }]

/-- Own-key lookup in LANGUAGE_PATTERNS; an absent key reads undefined,
which the source turns into the empty list. -/
def languagePatternsOf (lang : String) : List DetectionPattern :=
  if lang = "javascript" then JS_PATTERNS
  else if lang = "python" then PY_PATTERNS
  else if lang = "typescript" then TS_PATTERNS
  else []

/-- Property names inherited from Object.prototype.  LANGUAGE_PATTERNS
is a plain object literal, so indexing it with one of these yields a
truthy non-iterable value and the for-of loop of analyzeLine throws a
TypeError instead of falling back to the empty list. -/
def objectProtoKeys : List String :=
  ["constructor", "hasOwnProperty", "isPrototypeOf", "propertyIsEnumerable",
   "toLocaleString", "toString", "valueOf", "__defineGetter__", "__defineSetter__",
   "__lookupGetter__", "__lookupSetter__", "__proto__"]

/-- The per-line verdict produced by analyzeLine (LineAnalysis of the
source): raw line content, classification, confidence, justifications. -/
structure LineAnalysis where
  content : String
  isAI : Bool
  confidence : ℚ
  reasons : List String
deriving DecidableEq, Inhabited

/-- One emitted block (AIBlock of the source), the classification of its
run kept alongside for the statements about it. -/
structure AIBlock where
  startLine : Nat
  endLine : Nat
  confidenceLevel : String
  confidence : ℚ
  reasons : List String
deriving DecidableEq, Inhabited

/-- The aggregate result of one analysis (AnalysisResult of the source). -/
structure AnalysisResult where
  totalLines : Nat
  aiLines : Nat
  humanLines : Nat
  aiPercentage : ℚ
  humanPercentage : ℚ
  overallConfidence : ℚ
  lineAnalysis : List LineAnalysis
  aiBlocks : List AIBlock
deriving DecidableEq

/-- The lastIndex values of the g-flagged module-level RegExp objects:
one per AI_PATTERNS entry and one per entry of each language list. -/
structure RegexState where
  ai : List Nat
  js : List Nat
  py : List Nat
  ts : List Nat
deriving DecidableEq

/-- The state at module load: every lastIndex is 0. -/
def regexState0 : RegexState :=
  { ai := List.replicate 16 0, js := [0, 0], py := [0, 0], ts := [0] }

/-- Accumulated scores and justifications while scoring one line. -/
structure Score where
  aiScore : ℚ
  humanScore : ℚ
  reasons : List String
deriving DecidableEq

/-- The for-of loop over one detection table: test each pattern against
the trimmed content (threading each g-flagged regex's lastIndex), add
its weight to the matching side and record its justification. -/
def runPatterns : List DetectionPattern → List Nat → String → Score → Score × List Nat
  | [], _, _, sc => (sc, [])
  | p :: ps, st, content, sc =>
    let li := st.headD 0
    let tr := if p.global then testG p.re content li else (testP p.re content, li)
    let sc' :=
      if tr.1 then
        { aiScore := if p.aiIndicator then sc.aiScore + p.weight else sc.aiScore,
          humanScore := if p.aiIndicator then sc.humanScore else sc.humanScore + p.weight,
          reasons := sc.reasons ++ [p.reason] }
      else sc
    let r0 := runPatterns ps st.tail content sc'
    (r0.1, tr.2 :: r0.2)

/-- The language-specific table pass of analyzeLine, updating the state
of whichever table the language label selects. -/
def scoreLang (st : RegexState) (content : String) (lang : String) (sc : Score) :
    Score × RegexState :=
  if lang = "javascript" then
    let g := runPatterns JS_PATTERNS st.js content sc
    (g.1, { st with js := g.2 })
  else if lang = "python" then
    let g := runPatterns PY_PATTERNS st.py content sc
    (g.1, { st with py := g.2 })
  else if lang = "typescript" then
    let g := runPatterns TS_PATTERNS st.ts content sc
    (g.1, { st with ts := g.2 })
  else (sc, st)

/-- Structural punctuation class of the short-line heuristic. -/
def rePunct : RE :=
  .cls (fun c => decide (c = '\x7b' ∨ c = '\x7d' ∨ c = '(' ∨ c = ')' ∨ c = ';' ∨ c = ','))

/-- Negated code-safe class of the perfect-syntax heuristic: a character
outside word characters, whitespace and the listed symbols. -/
def reNonSafe : RE :=
  .cls (fun c => !(isWordChar c || jsSpace c ||
    decide (c = '(' ∨ c = ')' ∨ c = '[' ∨ c = ']' ∨ c = '\x7b' ∨ c = '\x7d' ∨ c = ';' ∨
      c = ':' ∨ c = ',' ∨ c = '.' ∨ c = '<' ∨ c = '>' ∨ c = '!' ∨ c = '@' ∨ c = '#' ∨
      c = '$' ∨ c = '%' ∨ c = '^' ∨ c = '&' ∨ c = '*' ∨ c = '+' ∨ c = '=' ∨ c = '|' ∨
      c = '\\' ∨ c = '?' ∨ c = '/' ∨ c = '-')))

/-- Placeholder and creative-naming tokens of the naming heuristic. -/
def reCreativeNaming : RE :=
  seqs [.wordB,
    altsR [strSI ("foo"), strSI ("bar"), strSI ("baz"), strSI ("qux"), strSI ("quirky"),
      strSI ("magic"), strSI ("hack"), strSI ("wtf")], .wordB]

/-- The additional direct heuristics of analyzeLine, applied after both
pattern tables on the same trimmed content. -/
def heuristics (content : String) (sc : Score) : Score :=
  let len := jsLength content
  let s1 :=
    if 120 < len then
      { sc with
        aiScore := sc.aiScore + 2/10,
        reasons := sc.reasons ++ ["Very long line length typical of AI generation"] }
    else if len < 20 ∧ ¬ testP rePunct content then
      { sc with
        humanScore := sc.humanScore + 1/10,
        reasons := sc.reasons ++ ["Short, concise line suggests human writing"] }
    else sc
  let s2 :=
    if ¬ testP reNonSafe content ∧ 30 < len then
      { s1 with aiScore := s1.aiScore + 1/10, reasons := s1.reasons ++ ["Perfect syntax and structure"] }
    else s1
  if testP reCreativeNaming content then
    { s2 with
      humanScore := s2.humanScore + 3/10,
      reasons := s2.reasons ++ ["Uses creative or placeholder naming typical of humans"] }
  else s2

/-- Full scoring of one non-blank trimmed line: general table, language
table, direct heuristics, with the regex state threaded through. -/
def scoreLine (st : RegexState) (content : String) (lang : String) : Score × RegexState :=
  let g1 := runPatterns AI_PATTERNS st.ai content { aiScore := 0, humanScore := 0, reasons := [] }
  let g2 := scoreLang { st with ai := g1.2 } content lang g1.1
  (heuristics content g2.1, g2.2)

/-- analyzeLine of the source: blank lines return the neutral verdict
before any regex is consulted; otherwise the scores decide the verdict,
with the confidence clamped into the closed interval from 0.10 to 0.95. -/
def analyzeLine (st : RegexState) (line : String) (lang : String) : LineAnalysis × RegexState :=
  let content := jsTrim line
  if content.isEmpty then
    ({ content := line, isAI := false, confidence := 1/2, reasons := ["Empty line - neutral"] }, st)
  else
    let g := scoreLine st content lang
    let totalScore := g.1.aiScore + g.1.humanScore
    let conf0 : ℚ := if 0 < totalScore then max g.1.aiScore g.1.humanScore / totalScore else 1/2
    let confidence := min (max conf0 (1/10)) (19/20)
    let reasons :=
      if g.1.reasons.isEmpty then ["No significant patterns detected - neutral classification"]
      else g.1.reasons
    ({ content := line, isAI := decide (g.1.humanScore < g.1.aiScore),
       confidence := confidence, reasons := reasons }, g.2)

/-- The creative-human signal list of isCreativeHumanCode; these regex
literals are rebuilt on every call, so they carry no lastIndex state. -/
def creativePatternList : List RE :=
  [seqs [altsR [strSI ("TODO"), strSI ("FIXME"), strSI ("HACK"), strSI ("XXX"), strSI ("NOTE")], chr ':'],
   seqs [.wordB,
     altsR [strSI ("foo"), strSI ("bar"), strSI ("baz"), strSI ("qux"), strSI ("quirky"),
       strSI ("magic"), strSI ("hack"), strSI ("wtf"), strSI ("temp"), strSI ("tmp")], .wordB],
   seqs [strS ("console.log"), chr '(',
     .nla (altsR [seqs [.star dotR, strS ("Result:")], seqs [.star dotR, strS ("Error:")],
       seqs [.star dotR, strS ("Usage:")]])],
   seqs [strSI ("//"), .star wsR, altsR [strSI ("FIXME"), strSI ("TODO"), strSI ("HACK"), strSI ("NOTE")]],
   seqs [strS ("//"), .star wsR, .cls isLowerChar,
     .star (.cls (fun c => !decide (c = '.' ∨ ('A' ≤ c ∧ c ≤ 'Z')))), .eol false],
   altsR [strS ("???"), strS ("!!!"), .seq (strS ("...")) (.eol false)],
   seqs [strSI ("//"), .star wsR, altsR [strSI ("lol"), strSI ("wtf"), strSI ("omg"), strSI ("meh"), strSI ("ugh")]]]

/-- isCreativeHumanCode of the source: does any creative-human signal
match the trimmed line? -/
def isCreativeHumanCode (line : String) : Bool :=
  let content := jsTrim line
  creativePatternList.any (fun r => testP r content)

/-- JS String.prototype.split with the one-character separator, the
newline: the list of chunks between newlines, with its singleton empty
chunk on the empty string. -/
def splitNlChars : List Char → List (List Char)
  | [] => [[]]
  | c :: cs =>
    let r := splitNlChars cs
    if c = '\n' then [] :: r
    else
      match r with
      | [] => [[c]]
      | g :: gs => (c :: g) :: gs

/-- code.split of the source, specialized to the newline separator. -/
def splitNl (s : String) : List String := (splitNlChars s.data).map String.mk

/-- Comment-shaped matcher of analyzeCodeStructure (g and m flags). -/
def reCommentShape : RE :=
  .alt (seqs [strS ("/*"), .lstar dotAllR, strS ("*/")])
    (seqs [strS ("//"), .star dotR, .eol true])

/-- Error-handling keyword matcher of analyzeCodeStructure. -/
def reErrKeyword : RE :=
  altsR [strS ("try"), strS ("catch"), strS ("throw"), strS ("Error"), strS ("Exception")]

/-- analyzeCodeStructure of the source: indentation consistency, comment
density and defensive-programming density over the whole blob, clamped
to at most 1.  Divisions by a zero line count follow the JS outcome
(the NaN comparisons are false, as is 0 divided by 0 here). -/
def analyzeCodeStructure (code : String) : ℚ :=
  let lines := (splitNl code).filter (fun l => !(jsTrim l).isEmpty)
  let fold := lines.foldl
    (fun (acc : Nat × String) line =>
      let indent := String.mk (line.data.takeWhile jsSpace)
      let pat := if acc.2.isEmpty ∧ ¬ indent.isEmpty then indent else acc.2
      if indent = pat ∨ indent.isEmpty ∨ pat.data.isPrefixOf indent.data then (acc.1 + 1, pat)
      else (acc.1, pat))
    ((0 : Nat), "")
  let s1 : ℚ := if (9 : ℚ)/10 < (fold.1 : ℚ) / (lines.length : ℚ) then 3/10 else 0
  let s2 : ℚ :=
    if (3 : ℚ)/10 < (countMatches reCommentShape code : ℚ) / (lines.length : ℚ) then s1 + 2/10 else s1
  let s3 : ℚ :=
    if (lines.length : ℚ) * (1/10) < (countMatches reErrKeyword code : ℚ) then s2 + 2/10 else s2
  min s3 1

/-- Is this verdict's raw content blank (trim gives the empty string)? -/
def isBlankLA (la : LineAnalysis) : Bool := (jsTrim la.content).isEmpty

/-- One step of the sandwich rule: the non-blank HUMAN line between two
AI-classified neighbors flips to AI (confidence raised to at least 0.8)
unless it carries a creative-human signal. -/
def sandwichStep (prev curr next : LineAnalysis) : LineAnalysis :=
  if ¬ isBlankLA curr ∧ curr.isAI = false ∧ prev.isAI = true ∧ next.isAI = true ∧
      isCreativeHumanCode curr.content = false then
    { curr with
      isAI := true,
      confidence := max curr.confidence (8/10),
      reasons := curr.reasons ++ ["Line sandwiched between AI-generated code blocks"] }
  else curr

/-- The forward scan of the sandwich pass.  The source mutates the array
in place, so the previous neighbor an iteration reads is the already
updated value while the next neighbor is still untouched; prev carries
that updated value through the recursion. -/
def passAGo (prev : LineAnalysis) : List LineAnalysis → List LineAnalysis
  | [] => []
  | [curr] => [curr]
  | curr :: next :: rest =>
    let c := sandwichStep prev curr next
    c :: passAGo c (next :: rest)

/-- Pass A of applyContextualAnalysis: the sandwich rule over indices 1
to length minus 2; the first and last entries are never modified. -/
def passA : List LineAnalysis → List LineAnalysis
  | [] => []
  | l0 :: rest => l0 :: passAGo l0 rest

/-- Does the classification verdict count as a non-blank AI line for the
pass-B lookahead? -/
def aiAndNonBlank (la : LineAnalysis) : Bool := !isBlankLA la && la.isAI

/-- Pass B of applyContextualAnalysis: count consecutive non-blank AI
lines (a blank line resets the count); from the third consecutive AI
line on, boost its confidence; a non-creative HUMAN line reached with a
count of at least 2 flips to AI when one of the next three raw entries
is a non-blank AI line, and the count resets in every HUMAN case. -/
def passB : Nat → List LineAnalysis → List LineAnalysis
  | _, [] => []
  | count, la :: rest =>
    if isBlankLA la then la :: passB 0 rest
    else if la.isAI then
      let la' :=
        if 3 ≤ count + 1 then { la with confidence := min (la.confidence + 1/10) (19/20) }
        else la
      la' :: passB (count + 1) rest
    else
      if 2 ≤ count ∧ isCreativeHumanCode la.content = false ∧
          (rest.take 3).any aiAndNonBlank = true then
        { la with
          isAI := true,
          confidence := max la.confidence (3/4),
          reasons := la.reasons ++ ["Part of extended AI-generated code block"] } :: passB 0 rest
      else la :: passB 0 rest

/-- applyContextualAnalysis of the source: the sandwich pass followed by
the run-extension pass, each a single forward sweep. -/
def applyContextualAnalysis (ls : List LineAnalysis) : List LineAnalysis :=
  passB 0 (passA ls)

/-- getConfidenceLevel of the source. -/
def getConfidenceLevel (confidence : ℚ) (isAI : Bool) : String :=
  if isAI then
    if 85/100 ≤ confidence then "Strongly AI"
    else if 7/10 ≤ confidence then "Moderate AI"
    else if 6/10 ≤ confidence then "Likely AI"
    else "Uncertain"
  else
    if 85/100 ≤ confidence then "Strongly Human"
    else if 7/10 ≤ confidence then "Likely Human"
    else "Uncertain"

/-- The block accumulator of detectAIBlocks. -/
structure IAcc where
  start : Nat
  endIdx : Nat
  isAI : Bool
  confidences : List ℚ
  reasons : List String
deriving DecidableEq

/-- A closed block before projection to the public record: the
classification of the run is kept. -/
structure IBlock where
  startLine : Nat
  endLine : Nat
  isAI : Bool
  confidence : ℚ
  confidenceLevel : String
  reasons : List String
deriving DecidableEq

/-- Insertion into a JS Set: append unless already present. -/
def addReason (rs : List String) (r : String) : List String :=
  if r ∈ rs then rs else rs ++ [r]

/-- A fresh accumulator started at 0-based index i. -/
def startAcc (i : Nat) (la : LineAnalysis) : IAcc :=
  { start := i + 1, endIdx := i + 1, isAI := la.isAI, confidences := [la.confidence],
    reasons := la.reasons.foldl addReason [] }

/-- Extending the current accumulator with the line at 0-based index i. -/
def extendAcc (b : IAcc) (i : Nat) (la : LineAnalysis) : IAcc :=
  { b with
    endIdx := i + 1,
    confidences := b.confidences ++ [la.confidence],
    reasons := la.reasons.foldl addReason b.reasons }

/-- Closing an accumulator: average confidence, tier, reason set. -/
def closeAcc (b : IAcc) : IBlock :=
  let avg := b.confidences.sum / (b.confidences.length : ℚ)
  { startLine := b.start, endLine := b.endIdx, isAI := b.isAI, confidence := avg,
    confidenceLevel := getConfidenceLevel avg b.isAI, reasons := b.reasons }

/-- A block is emitted only when it accumulated at least two lines. -/
def emitIfBig (b : IAcc) : List IBlock :=
  if 2 ≤ b.confidences.length then [closeAcc b] else []

/-- The walk of detectAIBlocks: i is the 0-based index of the head of
the remaining list; blank lines are skipped without touching the
current accumulator. -/
def goBlocks : Nat → Option IAcc → List LineAnalysis → List IBlock
  | _, none, [] => []
  | _, some b, [] => emitIfBig b
  | i, cur, la :: rest =>
    if isBlankLA la then goBlocks (i + 1) cur rest
    else
      match cur with
      | some b =>
        if b.isAI = la.isAI then goBlocks (i + 1) (some (extendAcc b i la)) rest
        else emitIfBig b ++ goBlocks (i + 1) (some (startAcc i la)) rest
      | none => goBlocks (i + 1) (some (startAcc i la)) rest

/-- detectAIBlocks before the projection that drops the run
classification. -/
def detectAIBlocksI (ls : List LineAnalysis) : List IBlock :=
  goBlocks 0 none ls

/-- Projection of a closed block to the public AIBlock record. -/
def toPublicBlock (b : IBlock) : AIBlock :=
  { startLine := b.startLine, endLine := b.endLine, confidenceLevel := b.confidenceLevel,
    confidence := b.confidence, reasons := b.reasons }

/-- detectAIBlocks of the source. -/
def detectAIBlocks (ls : List LineAnalysis) : List AIBlock :=
  (detectAIBlocksI ls).map toPublicBlock

/-- The per-line loop of analyzeCode: analyzeLine on each raw line in
order, threading the regex state. -/
def rawLines (st : RegexState) (lang : String) : List String → List LineAnalysis × RegexState
  | [] => ([], st)
  | l :: rest =>
    let g := analyzeLine st l lang
    let r0 := rawLines g.2 lang rest
    (g.1 :: r0.1, r0.2)

/-- The structure-bias adjustment of analyzeCode: when the global
structure score exceeds 0.5, every AI-classified line's confidence is
nudged up by 0.1 (capped at 0.95); human lines are never adjusted. -/
def biasAdjust (structureScore : ℚ) (la : LineAnalysis) : LineAnalysis :=
  if 1/2 < structureScore ∧ la.isAI = true then
    { la with confidence := min (la.confidence + 1/10) (19/20) }
  else la

/-- The line-verdict sequence of analyzeCode after scoring, bias and both
refinement passes, together with the final regex state. -/
def analyzeLinesRefined (st : RegexState) (code lang : String) :
    List LineAnalysis × RegexState :=
  let lines := splitNl code
  let structureScore := analyzeCodeStructure code
  let g := rawLines st lang lines
  (applyContextualAnalysis (g.1.map (biasAdjust structureScore)), g.2)

/-- analyzeCode of the source (the artificial delay has no effect on the
result and is omitted).  The regex state of the module-level tables is
an explicit input and output. -/
def analyzeCode (st : RegexState) (code lang : String) : AnalysisResult × RegexState :=
  let g := analyzeLinesRefined st code lang
  let lineAnalysis := g.1
  let aiBlocks := detectAIBlocks lineAnalysis
  let nonEmptyLines := lineAnalysis.filter (fun l => !isBlankLA l)
  let aiLines := (nonEmptyLines.filter (fun l => l.isAI)).length
  let humanLines := nonEmptyLines.length - aiLines
  let totalLines := nonEmptyLines.length
  let aiPercentage : ℚ := if 0 < totalLines then ((aiLines : ℚ) / (totalLines : ℚ)) * 100 else 0
  let humanPercentage : ℚ := if 0 < totalLines then ((humanLines : ℚ) / (totalLines : ℚ)) * 100 else 0
  let overallConfidence : ℚ :=
    if 0 < nonEmptyLines.length then
      (nonEmptyLines.map (fun l => l.confidence)).sum / (nonEmptyLines.length : ℚ)
    else 1/2
  ({ totalLines := totalLines, aiLines := aiLines, humanLines := humanLines,
     aiPercentage := aiPercentage, humanPercentage := humanPercentage,
     overallConfidence := overallConfidence, lineAnalysis := lineAnalysis,
     aiBlocks := aiBlocks }, g.2)

/-- The real entry point with the failure mode of the language lookup:
when the label names an inherited Object.prototype property and some
line is non-blank, analyzeLine's for-of loop over the truthy
non-iterable lookup result throws a TypeError; otherwise the analysis
completes.  (The general-table lastIndex mutations the first non-blank
line makes before the throw are not modelled in the error case; no
statement here depends on the escaped state of a throwing call.) -/
def analyzeCodeE (st : RegexState) (code lang : String) :
    Except String (AnalysisResult × RegexState) :=
  if lang ∈ objectProtoKeys ∧ (splitNl code).any (fun l => !(jsTrim l).isEmpty) then
    .error ("TypeError: langPatterns is not iterable")
  else .ok (analyzeCode st code lang)


/-- The per-line invariant the pipeline maintains: blank lines keep the
neutral verdict, non-blank lines keep their confidence inside the
closed interval from 0.10 to 0.95. -/
def lineInv (la : LineAnalysis) : Prop :=
  (isBlankLA la = true → la.confidence = 1/2 ∧ la.isAI = false) ∧
  (isBlankLA la = false → 1/10 ≤ la.confidence ∧ la.confidence ≤ 19/20)

/-- Pointwise monotonicity-toward-AI relation between a verdict before
and after a transformation: content kept, confidence not decreased,
and a classification change only from HUMAN to AI. -/
def monoLA (x y : LineAnalysis) : Prop :=
  y.content = x.content ∧ x.confidence ≤ y.confidence ∧ (x.isAI = true → y.isAI = true)

/-- Position p (1-based) of the verdict list holds a non-blank line. -/
def nonblankAt (ls : List LineAnalysis) (p : Nat) : Prop :=
  (ls[p - 1]?).map isBlankLA = some false

/-- The emitted blocks, read left to right, stay strictly beyond lo and
each next block starts strictly after the previous block ends. -/
def chainFrom (lo : Nat) : List IBlock → Prop
  | [] => True
  | b :: bs => lo < b.startLine ∧ chainFrom b.endLine bs

/-- Invariant of the open accumulator at index i (0-based): its bounds
are ordered, within the consumed prefix, endpoints non-blank, and it
holds as many confidences as member lines. -/
def accOK (ls : List LineAnalysis) (i lo : Nat) : Option IAcc → Prop
  | none => lo ≤ i
  | some b => lo < b.start ∧ 1 ≤ b.start ∧ b.start ≤ b.endIdx ∧ b.endIdx ≤ i ∧
      nonblankAt ls b.start ∧ nonblankAt ls b.endIdx ∧ 1 ≤ b.confidences.length ∧
      (2 ≤ b.confidences.length → b.start < b.endIdx)

/-- Soundness of one emitted block against the verdict list. -/
def blockSound (ls : List LineAnalysis) (b : IBlock) : Prop :=
  1 ≤ b.startLine ∧ b.startLine < b.endLine ∧ b.endLine ≤ ls.length ∧
  nonblankAt ls b.startLine ∧ nonblankAt ls b.endLine

/-- Decidable equality for the thrown-or-returned outcome. -/
instance {α β : Type} [DecidableEq α] [DecidableEq β] : DecidableEq (Except α β) := fun x y =>
  match x, y with
  | .error a, .error b =>
    if h : a = b then isTrue (by rw [h]) else isFalse (fun g => h (Except.error.inj g))
  | .error _, .ok _ => isFalse (fun g => Except.noConfusion g)
  | .ok _, .error _ => isFalse (fun g => Except.noConfusion g)
  | .ok a, .ok b =>
    if h : a = b then isTrue (by rw [h]) else isFalse (fun g => h (Except.ok.inj g))

/-- Five python-looking lines whose initial verdicts are AI, AI, HUMAN
(with a creative-human signal), AI, AI. -/
def cxCode3 : String := "# Step 1: a\nnums = nums\n# wtf magic\n# Step 2: b\nnums = nums"

/-- Seven raw lines: two AI lines, a non-creative HUMAN line, three
blank lines, one more AI line. -/
def cxCode4 : String := "# Step 1: a\nnums = nums\npear = pear\n\n\n\n# Step 2: b"

/-- The verdict sequence of cxCode4 after scoring, bias and the
sandwich pass, at the point where pass B runs. -/
def cxListA : List LineAnalysis :=
  passA ((rawLines regexState0 ("python") (splitNl cxCode4)).1.map
    (biasAdjust (analyzeCodeStructure cxCode4)))

/-- Witness line for the invariant theorems: analyzeLine's verdict on
the line "nums" from the initial state. -/
def wNums : LineAnalysis :=
  { content := "nums", isAI := true, confidence := 7/8,
    reasons := ["Uses educational variable names typical of AI tutorials",
      "Short, concise line suggests human writing"] }

/-- Witness human line for the pass-B step theorem. -/
def wHuman : LineAnalysis :=
  { content := "pear = pear", isAI := false, confidence := 19/20,
    reasons := ["Short, concise line suggests human writing"] }

/-- Witness AI line for the pass-B step theorem. -/
def wAI : LineAnalysis :=
  { content := "# Step 2: b", isAI := true, confidence := 9/10,
    reasons := ["Contains step-by-step comments typical of AI explanations",
      "Short, concise line suggests human writing"] }

/-- The first internal block of the cxCode3 run. -/
def wIBlk : IBlock :=
  { startLine := 1, endLine := 2, isAI := true, confidence := 71/80,
    confidenceLevel := "Strongly AI",
    reasons := ["Contains step-by-step comments typical of AI explanations",
      "Short, concise line suggests human writing",
      "Uses educational variable names typical of AI tutorials"] }

/-- The first public block of the cxCode3 run. -/
def wBlk : AIBlock :=
  { startLine := 1, endLine := 2, confidenceLevel := "Strongly AI", confidence := 71/80,
    reasons := ["Contains step-by-step comments typical of AI explanations",
      "Short, concise line suggests human writing",
      "Uses educational variable names typical of AI tutorials"] }

/-- analyzeLine establishes the per-line invariant. -/
theorem analyzeLine_inv (st : RegexState) (line lang : String) :
    lineInv (analyzeLine st line lang).1 := by
  unfold lineInv isBlankLA analyzeLine
  by_cases h : (jsTrim line).isEmpty
  · simp [h]
  · simp only [h, Bool.false_eq_true, if_false]
    refine ⟨by simp [h], fun _ => ?_⟩
    exact ⟨le_min (le_max_right _ _) (by norm_num), min_le_right _ _⟩

/-- analyzeLine returns the raw line as the content field. -/
theorem analyzeLine_content (st : RegexState) (line lang : String) :
    (analyzeLine st line lang).1.content = line := by
  unfold analyzeLine
  by_cases h : (jsTrim line).isEmpty <;> simp [h]

/-- The bias adjustment keeps the content. -/
theorem biasAdjust_content (s : ℚ) (la : LineAnalysis) :
    (biasAdjust s la).content = la.content := by
  unfold biasAdjust; split <;> rfl

/-- The bias adjustment preserves the per-line invariant. -/
theorem biasAdjust_inv (s : ℚ) {la : LineAnalysis} (h : lineInv la) :
    lineInv (biasAdjust s la) := by
  unfold biasAdjust
  split
  · next hc =>
    obtain ⟨hb, hn⟩ := h
    constructor
    · intro hbl
      exact absurd ((hb hbl).2) (by simp [hc.2])
    · intro hbl
      obtain ⟨h1, h2⟩ := hn hbl
      exact ⟨le_min (by linarith) (by norm_num), min_le_right _ _⟩
  · exact h

/-- The sandwich step keeps the content. -/
theorem sandwichStep_content (prev curr next : LineAnalysis) :
    (sandwichStep prev curr next).content = curr.content := by
  unfold sandwichStep; split <;> rfl

/-- The sandwich step preserves the per-line invariant. -/
theorem sandwichStep_inv (prev next : LineAnalysis) {curr : LineAnalysis}
    (h : lineInv curr) : lineInv (sandwichStep prev curr next) := by
  unfold sandwichStep
  split
  · next hc =>
    obtain ⟨hb, hn⟩ := h
    constructor
    · intro hbl
      exact absurd hbl (by simpa [isBlankLA] using hc.1)
    · intro hbl
      obtain ⟨h1, h2⟩ := hn (by simpa [isBlankLA] using hbl)
      exact ⟨le_trans h1 (le_max_left _ _), max_le h2 (by norm_num)⟩
  · exact h

/-- The sandwich pass preserves the per-line invariant. -/
theorem passAGo_inv : ∀ (l : List LineAnalysis) (prev : LineAnalysis),
    (∀ x ∈ l, lineInv x) → ∀ y ∈ passAGo prev l, lineInv y := by
  intro l
  induction l with
  | nil => simp [passAGo]
  | cons curr rest ih =>
    intro prev h
    cases rest with
    | nil =>
      simpa [passAGo] using h
    | cons next rest2 =>
      simp only [passAGo]
      intro y hy
      rcases List.mem_cons.mp hy with rfl | hy
      · exact sandwichStep_inv prev next (h curr (by simp))
      · exact ih _ (fun x hx => h x (List.mem_cons_of_mem _ hx)) y hy

/-- Pass A preserves the per-line invariant. -/
theorem passA_inv {l : List LineAnalysis} (h : ∀ x ∈ l, lineInv x) :
    ∀ y ∈ passA l, lineInv y := by
  cases l with
  | nil => simp [passA]
  | cons l0 rest =>
    intro y hy
    rcases List.mem_cons.mp hy with rfl | hy
    · exact h y (by simp)
    · exact passAGo_inv rest l0 (fun x hx => h x (List.mem_cons_of_mem _ hx)) y hy

/-- A non-blank line with bounded confidence satisfies the invariant. -/
theorem lineInv_of_nonblank {x : LineAnalysis} (hb : isBlankLA x = false)
    (h1 : 1/10 ≤ x.confidence) (h2 : x.confidence ≤ 19/20) : lineInv x :=
  ⟨fun hbl => absurd hbl (by simp [hb]), fun _ => ⟨h1, h2⟩⟩

/-- Pass B preserves the per-line invariant. -/
theorem passB_inv : ∀ (l : List LineAnalysis) (count : Nat),
    (∀ x ∈ l, lineInv x) → ∀ y ∈ passB count l, lineInv y := by
  intro l
  induction l with
  | nil => simp [passB]
  | cons la rest ih =>
    intro count h
    have hla := h la (List.mem_cons_self la rest)
    have htail : ∀ x ∈ rest, lineInv x := fun x hx => h x (List.mem_cons_of_mem la hx)
    intro y hy
    cases hb : isBlankLA la with
    | true =>
      simp only [passB, hb, if_true] at hy
      rcases List.mem_cons.mp hy with rfl | hy
      · exact hla
      · exact ih 0 htail y hy
    | false =>
      obtain ⟨hc1, hc2⟩ := hla.2 hb
      cases hai : la.isAI with
      | true =>
        simp only [passB, hb, hai, Bool.false_eq_true, if_false, if_true] at hy
        rcases List.mem_cons.mp hy with rfl | hy
        · split
          · exact lineInv_of_nonblank hb (le_min (by linarith) (by norm_num)) (min_le_right _ _)
          · exact hla
        · exact ih (count + 1) htail y hy
      | false =>
        simp only [passB, hb, hai, Bool.false_eq_true, if_false] at hy
        split at hy
        · rcases List.mem_cons.mp hy with rfl | hy
          · exact lineInv_of_nonblank hb (le_trans hc1 (le_max_left _ _))
              (max_le hc2 (by norm_num))
          · exact ih 0 htail y hy
        · rcases List.mem_cons.mp hy with rfl | hy
          · exact hla
          · exact ih 0 htail y hy

/-- Every line the per-line loop produces satisfies the invariant. -/
theorem rawLines_inv : ∀ (ls : List String) (st : RegexState) (lang : String),
    ∀ la ∈ (rawLines st lang ls).1, lineInv la := by
  intro ls
  induction ls with
  | nil => simp [rawLines]
  | cons l rest ih =>
    intro st lang la hla
    simp only [rawLines] at hla
    rcases List.mem_cons.mp hla with rfl | hla
    · exact analyzeLine_inv st l lang
    · exact ih _ _ la hla

/-- C5: in the final result of analyzeCode every blank line carries
confidence exactly one half and the HUMAN classification, and every
non-blank line's confidence lies in the closed interval from 0.10 to
0.95 — the bound survives the bias adjustment and both refiner passes. -/
theorem analyzeCode_confidence_bounds : ∀ (st : RegexState) (code lang : String),
    ∀ la ∈ (analyzeCode st code lang).1.lineAnalysis,
      ((jsTrim la.content).isEmpty = true → la.confidence = 1/2 ∧ la.isAI = false) ∧
      ((jsTrim la.content).isEmpty = false → 1/10 ≤ la.confidence ∧ la.confidence ≤ 19/20) := by
  intro st code lang la hla
  have h1 : ∀ x ∈ (rawLines st lang (splitNl code)).1, lineInv x := rawLines_inv _ _ _
  have h2 : ∀ x ∈ (rawLines st lang (splitNl code)).1.map
      (biasAdjust (analyzeCodeStructure code)), lineInv x := by
    intro x hx
    rcases List.mem_map.mp hx with ⟨y, hy, rfl⟩
    exact biasAdjust_inv _ (h1 y hy)
  have h3 := passA_inv h2
  have h4 := passB_inv _ 0 h3
  have he : (analyzeCode st code lang).1.lineAnalysis =
      passB 0 (passA ((rawLines st lang (splitNl code)).1.map
        (biasAdjust (analyzeCodeStructure code)))) := rfl
  exact h4 la (he ▸ hla)

/-- monoLA is reflexive. -/
theorem monoLA_refl (x : LineAnalysis) : monoLA x x := ⟨rfl, le_refl _, fun h => h⟩

/-- monoLA is transitive. -/
theorem monoLA_trans {x y z : LineAnalysis} (h1 : monoLA x y) (h2 : monoLA y z) :
    monoLA x z :=
  ⟨h2.1.trans h1.1, h1.2.1.trans h2.2.1, fun h => h2.2.2 (h1.2.2 h)⟩

/-- Forall₂ of monoLA composes. -/
theorem forall₂_monoLA_trans : ∀ {a b c : List LineAnalysis},
    List.Forall₂ monoLA a b → List.Forall₂ monoLA b c → List.Forall₂ monoLA a c := by
  intro a b c h1
  induction h1 generalizing c with
  | nil => intro h2; cases h2; exact .nil
  | cons hxy htail ih =>
    intro h2
    cases h2 with
    | cons hyz h2tail => exact .cons (monoLA_trans hxy hyz) (ih h2tail)

/-- The bias adjustment is monotone toward AI on invariant lines. -/
theorem biasAdjust_mono (s : ℚ) {la : LineAnalysis} (h : lineInv la) :
    monoLA la (biasAdjust s la) := by
  unfold biasAdjust
  split
  · next hc =>
    have hnb : isBlankLA la = false := by
      cases hbl : isBlankLA la
      · rfl
      · exact absurd (h.1 hbl).2 (by simp [hc.2])
    exact ⟨rfl, le_min (by linarith) (h.2 hnb).2, fun hh => hh⟩
  · exact monoLA_refl la

/-- The sandwich step is monotone toward AI. -/
theorem sandwichStep_mono (prev curr next : LineAnalysis) :
    monoLA curr (sandwichStep prev curr next) := by
  unfold sandwichStep
  split
  · exact ⟨rfl, le_max_left _ _, fun _ => rfl⟩
  · exact monoLA_refl curr

/-- The sandwich scan is monotone toward AI. -/
theorem passAGo_mono : ∀ (l : List LineAnalysis) (prev : LineAnalysis),
    List.Forall₂ monoLA l (passAGo prev l) := by
  intro l
  induction l with
  | nil => intro prev; exact .nil
  | cons curr rest ih =>
    intro prev
    cases rest with
    | nil => exact .cons (monoLA_refl curr) .nil
    | cons next rest2 =>
      simp only [passAGo]
      exact .cons (sandwichStep_mono prev curr next) (ih _)

/-- Pass A is monotone toward AI. -/
theorem passA_mono : ∀ l : List LineAnalysis, List.Forall₂ monoLA l (passA l) := by
  intro l
  cases l with
  | nil => exact .nil
  | cons l0 rest => exact .cons (monoLA_refl l0) (passAGo_mono rest l0)

/-- Pass B is monotone toward AI on invariant lines. -/
theorem passB_mono : ∀ (l : List LineAnalysis) (count : Nat),
    (∀ x ∈ l, lineInv x) → List.Forall₂ monoLA l (passB count l) := by
  intro l
  induction l with
  | nil => intro count _; exact .nil
  | cons la rest ih =>
    intro count h
    have hla := h la (List.mem_cons_self la rest)
    have htail : ∀ x ∈ rest, lineInv x := fun x hx => h x (List.mem_cons_of_mem la hx)
    cases hb : isBlankLA la with
    | true =>
      simp only [passB, hb, if_true]
      exact .cons (monoLA_refl la) (ih 0 htail)
    | false =>
      obtain ⟨hc1, hc2⟩ := hla.2 hb
      cases hai : la.isAI with
      | true =>
        simp only [passB, hb, hai, Bool.false_eq_true, if_false, if_true]
        refine .cons ?_ (ih (count + 1) htail)
        split
        · exact ⟨rfl, le_min (by linarith) hc2, fun _ => rfl⟩
        · exact monoLA_refl la
      | false =>
        simp only [passB, hb, hai, Bool.false_eq_true, if_false]
        split
        · exact .cons ⟨rfl, le_max_left _ _, fun _ => rfl⟩ (ih 0 htail)
        · exact .cons (monoLA_refl la) (ih 0 htail)

/-- The bias map is monotone toward AI on invariant lines. -/
theorem mapBias_mono (s : ℚ) : ∀ l : List LineAnalysis,
    (∀ x ∈ l, lineInv x) → List.Forall₂ monoLA l (l.map (biasAdjust s)) := by
  intro l
  induction l with
  | nil => intro _; exact .nil
  | cons la rest ih =>
    intro h
    exact .cons (biasAdjust_mono s (h la (List.mem_cons_self la rest)))
      (ih fun x hx => h x (List.mem_cons_of_mem la hx))

/-- Index extraction from Forall₂. -/
theorem forall₂_monoLA_get : ∀ {l1 l2 : List LineAnalysis}, List.Forall₂ monoLA l1 l2 →
    ∀ (i : Nat) (x y : LineAnalysis), l1[i]? = some x → l2[i]? = some y → monoLA x y := by
  intro l1 l2 h
  induction h with
  | nil => intro i x y h1; simp at h1
  | cons hr htail ih =>
    intro i x y h1 h2
    cases i with
    | zero =>
      simp only [List.getElem?_cons_zero, Option.some.injEq] at h1 h2
      subst h1; subst h2; exact hr
    | succ n =>
      simp only [List.getElem?_cons_succ] at h1 h2
      exact ih n x y h1 h2

/-- C9: the structure-bias adjustment and both refiner passes are
monotone toward AI: for every line position the final confidence is at
least the pre-refinement confidence, and the classification can only
change from HUMAN to AI, never back; the content is untouched. -/
theorem analyzeCode_monotone : ∀ (st : RegexState) (code lang : String) (i : Nat)
    (x y : LineAnalysis),
    ((rawLines st lang (splitNl code)).1)[i]? = some x →
    ((analyzeCode st code lang).1.lineAnalysis)[i]? = some y →
    y.content = x.content ∧ x.confidence ≤ y.confidence ∧ (x.isAI = true → y.isAI = true) := by
  intro st code lang i x y h1 h2
  have hinv : ∀ la ∈ (rawLines st lang (splitNl code)).1, lineInv la := rawLines_inv _ _ _
  have hbinv : ∀ la ∈ (rawLines st lang (splitNl code)).1.map
      (biasAdjust (analyzeCodeStructure code)), lineInv la := by
    intro la hla
    rcases List.mem_map.mp hla with ⟨z, hz, rfl⟩
    exact biasAdjust_inv _ (hinv z hz)
  have hstep1 := mapBias_mono (analyzeCodeStructure code) _ hinv
  have hstep2 := passA_mono ((rawLines st lang (splitNl code)).1.map
    (biasAdjust (analyzeCodeStructure code)))
  have hstep3 := passB_mono _ 0 (passA_inv hbinv)
  have hAll := forall₂_monoLA_trans (forall₂_monoLA_trans hstep1 hstep2) hstep3
  have he : (analyzeCode st code lang).1.lineAnalysis =
      passB 0 (passA ((rawLines st lang (splitNl code)).1.map
        (biasAdjust (analyzeCodeStructure code)))) := rfl
  exact forall₂_monoLA_get hAll i x y h1 (he ▸ h2)

/-- C6: on a non-blank line the verdict is AI exactly when the
accumulated aiScore strictly exceeds humanScore (a tie yields HUMAN),
and the pre-bias confidence is the dominant share of the total score
(one half when the total is zero) clamped into [0.10, 0.95]. -/
theorem analyzeLine_score_spec : ∀ (st : RegexState) (line lang : String),
    (jsTrim line).isEmpty = false →
    ((analyzeLine st line lang).1.isAI = true ↔
      (scoreLine st (jsTrim line) lang).1.humanScore <
        (scoreLine st (jsTrim line) lang).1.aiScore) ∧
    (analyzeLine st line lang).1.confidence =
      min (max (if 0 < (scoreLine st (jsTrim line) lang).1.aiScore +
            (scoreLine st (jsTrim line) lang).1.humanScore
          then max (scoreLine st (jsTrim line) lang).1.aiScore
              (scoreLine st (jsTrim line) lang).1.humanScore /
            ((scoreLine st (jsTrim line) lang).1.aiScore +
              (scoreLine st (jsTrim line) lang).1.humanScore)
          else 1/2) (1/10)) (19/20) := by
  intro st line lang h
  unfold analyzeLine
  simp only [h, Bool.false_eq_true, if_false, decide_eq_true_eq]
  exact ⟨trivial, trivial⟩

/-- Arithmetic core of the statistics: with a the AI count and t the
non-blank total, the percentage formulas are bounded and complementary. -/
theorem stats_arith (t a : Nat) (hat : a ≤ t) :
    0 ≤ (if 0 < t then ((a : ℚ)/(t : ℚ)) * 100 else 0) ∧
    (if 0 < t then ((a : ℚ)/(t : ℚ)) * 100 else 0) ≤ 100 ∧
    (0 < t → (if 0 < t then ((a : ℚ)/(t : ℚ)) * 100 else 0) +
      (if 0 < t then (((t - a : Nat) : ℚ)/(t : ℚ)) * 100 else 0) = 100) ∧
    (t = 0 → (if 0 < t then ((a : ℚ)/(t : ℚ)) * 100 else 0) = 0 ∧
      (if 0 < t then (((t - a : Nat) : ℚ)/(t : ℚ)) * 100 else 0) = 0) := by
  by_cases hp : 0 < t
  · have ht0 : (0 : ℚ) < (t : ℚ) := by exact_mod_cast hp
    have hle : (a : ℚ) ≤ (t : ℚ) := by exact_mod_cast hat
    refine ⟨?_, ?_, ?_, ?_⟩
    · rw [if_pos hp]
      positivity
    · rw [if_pos hp]
      calc ((a : ℚ)/(t : ℚ)) * 100 ≤ 1 * 100 := by
            exact mul_le_mul_of_nonneg_right ((div_le_one ht0).2 hle) (by norm_num)
        _ = 100 := by norm_num
    · intro _
      rw [if_pos hp, if_pos hp, Nat.cast_sub hat]
      field_simp
      ring
    · intro h0
      exact absurd h0 (by omega)
  · have h0 : ¬ 0 < t := hp
    simp [h0]

/-- C7: the percentages of analyzeCode are bounded by 0 and 100 and sum
to exactly 100 whenever some non-blank line exists (both vanish when
none does); the counters count only non-blank lines, humanLines is
their complement, and overallConfidence is the unweighted mean of
non-blank per-line confidences, one half when there are none. -/
theorem analyzeCode_stats : ∀ (st : RegexState) (code lang : String),
    0 ≤ (analyzeCode st code lang).1.aiPercentage ∧
    (analyzeCode st code lang).1.aiPercentage ≤ 100 ∧
    (0 < (analyzeCode st code lang).1.totalLines →
      (analyzeCode st code lang).1.aiPercentage +
        (analyzeCode st code lang).1.humanPercentage = 100) ∧
    ((analyzeCode st code lang).1.totalLines = 0 →
      (analyzeCode st code lang).1.aiPercentage = 0 ∧
      (analyzeCode st code lang).1.humanPercentage = 0) ∧
    (analyzeCode st code lang).1.totalLines =
      ((analyzeCode st code lang).1.lineAnalysis.filter (fun l => !isBlankLA l)).length ∧
    (analyzeCode st code lang).1.aiLines =
      (((analyzeCode st code lang).1.lineAnalysis.filter (fun l => !isBlankLA l)).filter
        (fun l => l.isAI)).length ∧
    (analyzeCode st code lang).1.humanLines =
      (analyzeCode st code lang).1.totalLines - (analyzeCode st code lang).1.aiLines ∧
    (analyzeCode st code lang).1.overallConfidence =
      (if 0 < (analyzeCode st code lang).1.totalLines then
        (((analyzeCode st code lang).1.lineAnalysis.filter (fun l => !isBlankLA l)).map
          (fun l => l.confidence)).sum /
          (((analyzeCode st code lang).1.totalLines : Nat) : ℚ)
      else 1/2) := by
  intro st code lang
  obtain ⟨g1, g2, g3, g4⟩ := stats_arith
    (((analyzeLinesRefined st code lang).1.filter (fun l => !isBlankLA l)).length)
    ((((analyzeLinesRefined st code lang).1.filter (fun l => !isBlankLA l)).filter
      (fun l => l.isAI)).length)
    (List.length_filter_le _ _)
  exact ⟨g1, g2, g3, g4, rfl, rfl, rfl, rfl⟩

/-- C4 (amended): a non-blank, non-creative HUMAN line reached with the
consecutive-AI count at 2 or more flips to AI (confidence raised to at
least 0.75, justification appended) exactly when one of the next three
RAW entries — blanks counted against the window — is a non-blank AI
line, and the count resets either way. -/
theorem passB_flip_step : ∀ (count : Nat) (la : LineAnalysis) (rest : List LineAnalysis),
    2 ≤ count → isBlankLA la = false → la.isAI = false →
    isCreativeHumanCode la.content = false →
    passB count (la :: rest) =
      (if (rest.take 3).any aiAndNonBlank = true then
        { la with
          isAI := true,
          confidence := max la.confidence (3/4),
          reasons := la.reasons ++ ["Part of extended AI-generated code block"] }
      else la) :: passB 0 rest := by
  intro count la rest h2 hb hai hcr
  by_cases hx : (rest.take 3).any aiAndNonBlank = true
  · simp [passB, hb, hai, hcr, h2, hx]
  · simp [passB, hb, hai, hcr, h2, hx]

/-- The sandwich scan preserves length. -/
theorem passAGo_length : ∀ (l : List LineAnalysis) (prev : LineAnalysis),
    (passAGo prev l).length = l.length := by
  intro l
  induction l with
  | nil => intro prev; rfl
  | cons curr rest ih =>
    intro prev
    cases rest with
    | nil => rfl
    | cons next rest2 =>
      simp [passAGo, ih]

/-- Pass A preserves length. -/
theorem passA_length (l : List LineAnalysis) : (passA l).length = l.length := by
  cases l with
  | nil => rfl
  | cons l0 rest =>
    simp only [passA, List.length_cons]
    rw [passAGo_length]

/-- Pass B preserves length. -/
theorem passB_length : ∀ (l : List LineAnalysis) (count : Nat),
    (passB count l).length = l.length := by
  intro l
  induction l with
  | nil => intro count; rfl
  | cons la rest ih =>
    intro count
    cases hb : isBlankLA la with
    | true => simp only [passB, hb, if_true, List.length_cons]; rw [ih]
    | false =>
      cases hai : la.isAI with
      | true =>
        simp only [passB, hb, hai, Bool.false_eq_true, if_false, if_true, List.length_cons]
        rw [ih]
      | false =>
        simp only [passB, hb, hai, Bool.false_eq_true, if_false]
        split <;> simp only [List.length_cons] <;> rw [ih]

/-- The per-line loop preserves length. -/
theorem rawLines_length : ∀ (ls : List String) (st : RegexState) (lang : String),
    ((rawLines st lang ls).1).length = ls.length := by
  intro ls
  induction ls with
  | nil => intro st lang; rfl
  | cons l rest ih =>
    intro st lang
    simp only [rawLines, List.length_cons]
    rw [ih]

/-- The refined verdict list has one entry per raw line. -/
theorem analyzeLinesRefined_length (st : RegexState) (code lang : String) :
    ((analyzeLinesRefined st code lang).1).length = (splitNl code).length := by
  have he : (analyzeLinesRefined st code lang).1 =
      passB 0 (passA ((rawLines st lang (splitNl code)).1.map
        (biasAdjust (analyzeCodeStructure code)))) := rfl
  rw [he, passB_length, passA_length, List.length_map, rawLines_length]

/-- A freshly started accumulator satisfies the invariant. -/
theorem accOK_start (ls : List LineAnalysis) (i lo : Nat) (la : LineAnalysis)
    (hlo : lo < i + 1) (hnb : nonblankAt ls (i + 1)) :
    accOK ls (i + 1) lo (some (startAcc i la)) := by
  refine ⟨hlo, Nat.succ_le_succ (Nat.zero_le i), le_refl _, le_refl _, hnb, hnb, ?_, ?_⟩
  · simp [startAcc]
  · intro h
    simp [startAcc] at h

/-- Master soundness of the block walk: under the accumulator invariant
the emitted blocks are chained beyond lo and each is sound. -/
theorem goBlocks_sound (ls : List LineAnalysis) :
    ∀ (rest : List LineAnalysis) (i lo : Nat) (cur : Option IAcc),
      (∀ k, rest[k]? = ls[i + k]?) → i + rest.length = ls.length →
      accOK ls i lo cur →
      chainFrom lo (goBlocks i cur rest) ∧
        ∀ blk ∈ goBlocks i cur rest, blockSound ls blk := by
  intro rest
  induction rest with
  | nil =>
    intro i lo cur hcorr hlen hacc
    cases cur with
    | none => exact ⟨trivial, by simp [goBlocks]⟩
    | some b =>
      obtain ⟨hlo, h1, hse, hei, hnb1, hnb2, hc1, hstrict⟩ := hacc
      have hlen0 : i = ls.length := by simpa using hlen
      simp only [goBlocks, emitIfBig]
      by_cases h2 : 2 ≤ b.confidences.length
      · rw [if_pos h2]
        refine ⟨⟨hlo, trivial⟩, ?_⟩
        intro blk hblk
        rcases List.mem_singleton.mp hblk with rfl
        exact ⟨h1, hstrict h2, hlen0 ▸ hei, hnb1, hnb2⟩
      · rw [if_neg h2]
        exact ⟨trivial, by simp⟩
  | cons la rest ih =>
    intro i lo cur hcorr hlen hacc
    have hhead : ls[i]? = some la := by
      have := hcorr 0
      simpa using this.symm
    have hcorr2 : ∀ k, rest[k]? = ls[(i + 1) + k]? := by
      intro k
      have h := hcorr (k + 1)
      have : i + (k + 1) = (i + 1) + k := by omega
      rw [this] at h
      simpa using h
    have hlen2 : (i + 1) + rest.length = ls.length := by
      simp only [List.length_cons] at hlen
      omega
    have hils : i ≤ ls.length := by
      simp only [List.length_cons] at hlen
      omega
    cases hb : isBlankLA la with
    | true =>
      cases cur with
      | none =>
        have he : goBlocks i none (la :: rest) = goBlocks (i + 1) none rest := by
          simp [goBlocks, hb]
        rw [he]
        exact ih (i + 1) lo none hcorr2 hlen2 (Nat.le_succ_of_le hacc)
      | some b =>
        obtain ⟨hlo, h1, hse, hei, hnb1, hnb2, hc1, hstrict⟩ := hacc
        have he : goBlocks i (some b) (la :: rest) = goBlocks (i + 1) (some b) rest := by
          simp [goBlocks, hb]
        rw [he]
        exact ih (i + 1) lo (some b) hcorr2 hlen2
          ⟨hlo, h1, hse, Nat.le_succ_of_le hei, hnb1, hnb2, hc1, hstrict⟩
    | false =>
      have hnbi : nonblankAt ls (i + 1) := by
        unfold nonblankAt
        simp [hhead, hb]
      cases cur with
      | none =>
        have he : goBlocks i none (la :: rest) =
            goBlocks (i + 1) (some (startAcc i la)) rest := by
          simp [goBlocks, hb]
        rw [he]
        exact ih (i + 1) lo _ hcorr2 hlen2 (accOK_start ls i lo la (Nat.lt_succ_of_le hacc) hnbi)
      | some b =>
        obtain ⟨hlo, h1, hse, hei, hnb1, hnb2, hc1, hstrict⟩ := hacc
        by_cases hsame : b.isAI = la.isAI
        · have he : goBlocks i (some b) (la :: rest) =
              goBlocks (i + 1) (some (extendAcc b i la)) rest := by
            simp [goBlocks, hb, hsame]
          rw [he]
          apply ih (i + 1) lo _ hcorr2 hlen2
          refine ⟨hlo, h1, le_trans hse (le_trans hei (Nat.le_succ i)), le_refl _,
            hnb1, hnbi, ?_, ?_⟩
          · simp [extendAcc]
          · intro _
            exact Nat.lt_succ_of_le (le_trans hse hei)
        · have he : goBlocks i (some b) (la :: rest) =
              emitIfBig b ++ goBlocks (i + 1) (some (startAcc i la)) rest := by
            simp [goBlocks, hb, hsame]
          rw [he]
          by_cases h2 : 2 ≤ b.confidences.length
          · have hout := ih (i + 1) b.endIdx (some (startAcc i la)) hcorr2 hlen2
              (accOK_start ls i b.endIdx la (Nat.lt_succ_of_le hei) hnbi)
            constructor
            · simp only [emitIfBig, if_pos h2, List.singleton_append]
              exact ⟨hlo, hout.1⟩
            · intro blk hblk
              simp only [emitIfBig, if_pos h2, List.singleton_append, List.mem_cons] at hblk
              rcases hblk with rfl | hblk
              · exact ⟨h1, hstrict h2, le_trans hei hils, hnb1, hnb2⟩
              · exact hout.2 blk hblk
          · have hout := ih (i + 1) lo (some (startAcc i la)) hcorr2 hlen2
              (accOK_start ls i lo la (by omega) hnbi)
            constructor
            · simp only [emitIfBig, if_neg h2, List.nil_append]
              exact hout.1
            · intro blk hblk
              simp only [emitIfBig, if_neg h2, List.nil_append] at hblk
              exact hout.2 blk hblk

/-- chainFrom implies the pairwise strict ordering of adjacent blocks. -/
theorem chainFrom_chain' : ∀ (bs : List IBlock) (lo : Nat), chainFrom lo bs →
    List.Chain' (fun x y => x.endLine < y.startLine) bs := by
  intro bs
  induction bs with
  | nil => intro lo _; exact List.chain'_nil
  | cons b bs2 ih =>
    intro lo h
    cases bs2 with
    | nil => simp
    | cons c bs3 =>
      obtain ⟨_, h2⟩ := h
      exact List.Chain'.cons h2.1 (ih b.endLine h2)

/-- C3 (amended): every emitted block spans at least two distinct
non-blank member lines (its endpoints), so runs of fewer than two lines
are never emitted; adjacent emitted blocks may share a classification
when a short run between them was discarded. -/
theorem detectAIBlocks_min_members : ∀ (ls : List LineAnalysis),
    ∀ blk ∈ detectAIBlocksI ls,
      blk.startLine < blk.endLine ∧ nonblankAt ls blk.startLine ∧
        nonblankAt ls blk.endLine := by
  intro ls blk hblk
  have h := (goBlocks_sound ls ls 0 0 none (fun k => by rw [Nat.zero_add])
    (by rw [Nat.zero_add]) (Nat.le_refl 0)).2 blk hblk
  obtain ⟨_, hlt, _, hnb1, hnb2⟩ := h
  exact ⟨hlt, hnb1, hnb2⟩

/-- C10: the emitted block list of analyzeCode is ordered and disjoint:
each block has 1-based bounds within the raw line count, both endpoints
reference non-blank lines of the final verdict list, and every later
block starts strictly after the previous one ends. -/
theorem analyzeCode_blocks_ordered : ∀ (st : RegexState) (code lang : String),
    (∀ blk ∈ (analyzeCode st code lang).1.aiBlocks,
      1 ≤ blk.startLine ∧ blk.startLine ≤ blk.endLine ∧
      blk.endLine ≤ (splitNl code).length ∧
      nonblankAt (analyzeCode st code lang).1.lineAnalysis blk.startLine ∧
      nonblankAt (analyzeCode st code lang).1.lineAnalysis blk.endLine) ∧
    List.Chain' (fun x y => x.endLine < y.startLine)
      (analyzeCode st code lang).1.aiBlocks := by
  intro st code lang
  have hlen := analyzeLinesRefined_length st code lang
  have hmain := goBlocks_sound (analyzeLinesRefined st code lang).1
    (analyzeLinesRefined st code lang).1 0 0 none (fun k => by rw [Nat.zero_add])
    (by rw [Nat.zero_add]) (Nat.le_refl 0)
  constructor
  · intro blk hblk
    have heq : (analyzeCode st code lang).1.aiBlocks =
        (detectAIBlocksI (analyzeLinesRefined st code lang).1).map toPublicBlock := rfl
    rw [heq] at hblk
    rcases List.mem_map.mp hblk with ⟨ib, hib, rfl⟩
    obtain ⟨h1, hlt, hle, hnb1, hnb2⟩ := hmain.2 ib hib
    exact ⟨h1, le_of_lt hlt, hlen ▸ hle, hnb1, hnb2⟩
  · have heq : (analyzeCode st code lang).1.aiBlocks =
        (detectAIBlocksI (analyzeLinesRefined st code lang).1).map toPublicBlock := rfl
    rw [heq, List.chain'_map]
    exact chainFrom_chain' _ 0 hmain.1


set_option allowUnsafeReducibility true
attribute [semireducible] Rat.add Rat.mul Rat.div Rat.sub Rat.neg Rat.inv

/-- C1: analyzeCode is not a stateless function of its inputs.  The
g-flagged module-level regexes keep their lastIndex across calls, so a
second call on the identical pair (code "nums", language "python")
classifies the line HUMAN with confidence 0.95 where the first call
classified it AI with confidence 7/8, and the escaped state differs
from the initial one. -/
theorem analyzeCode_not_stateless :
    ((analyzeCode regexState0 ("nums") ("python")).1.lineAnalysis.map
      (fun l => (l.isAI, l.confidence))) = [(true, 7/8)] ∧
    ((analyzeCode (analyzeCode regexState0 ("nums") ("python")).2 ("nums")
      ("python")).1.lineAnalysis.map (fun l => (l.isAI, l.confidence))) = [(false, 19/20)] ∧
    (analyzeCode regexState0 ("nums") ("python")).1.aiPercentage = 100 ∧
    (analyzeCode (analyzeCode regexState0 ("nums") ("python")).2 ("nums")
      ("python")).1.aiPercentage = 0 ∧
    (analyzeCode regexState0 ("nums") ("python")).2 ≠ regexState0 := by
  decide

/-- C2: the language lookup falls through to Object.prototype, so the
label "toString" (not a registry key, hence no language rules) makes
analyzeCode throw a TypeError on any non-blank input instead of
degrading to the empty rule list; an ordinary unknown label such as
"ruby" does degrade to the empty list and completes. -/
theorem analyzeCodeE_prototype_label :
    analyzeCodeE regexState0 ("x = 1") ("toString") =
      .error ("TypeError: langPatterns is not iterable") ∧
    languagePatternsOf ("toString") = [] ∧
    analyzeCodeE regexState0 ("x = 1") ("ruby") =
      .ok (analyzeCode regexState0 ("x = 1") ("ruby")) ∧
    languagePatternsOf ("ruby") = [] ∧
    (analyzeCode regexState0 ("x = 1") ("ruby")).1.lineAnalysis.length = 1 ∧
    analyzeCodeE regexState0 ("") ("toString") = .ok (analyzeCode regexState0 ("") ("toString")) :=
  ⟨rfl, rfl, rfl, rfl, by decide, rfl⟩

/-- C3 counterexample: on cxCode3 the refined verdicts are AI, AI,
HUMAN, AI, AI; the singleton HUMAN run is discarded, and the two
emitted blocks are adjacent in the output yet share the AI
classification (and even the same tier), refuting the claim that no
two adjacent emitted blocks share a classification. -/
theorem blocks_adjacent_same_class_cx :
    ((detectAIBlocksI (analyzeLinesRefined regexState0 cxCode3 ("python")).1).map
      (fun b => (b.isAI, b.startLine, b.endLine))) = [(true, 1, 2), (true, 4, 5)] ∧
    ((analyzeCode regexState0 cxCode3 ("python")).1.lineAnalysis.map
      (fun l => l.isAI)) = [true, true, false, true, true] ∧
    ((analyzeCode regexState0 cxCode3 ("python")).1.aiBlocks.map
      (fun b => b.confidenceLevel)) = ["Strongly AI", "Strongly AI"] := by
  decide

/-- C4 counterexample: in cxCode4's pass-B input, index 2 is a
non-blank, non-creative HUMAN line reached with the consecutive-AI
count at 2, and the first of the following NON-BLANK lines is an AI
line; the claim therefore demands a flip to AI, but the source scans
only the next three RAW entries, all blank here, so the line stays
HUMAN in the final result.  On the same sequence with the blank lines
removed the very same line IS flipped, so the raw window is the only
obstacle. -/
theorem passB_raw_window_cx :
    (cxListA.map (fun l => l.isAI)) = [true, true, false, false, false, false, true] ∧
    (cxListA.map isBlankLA) = [false, false, false, true, true, true, false] ∧
    (cxListA.map (fun l => isCreativeHumanCode l.content))[2]? = some false ∧
    (((cxListA.drop 3).filter (fun l => !isBlankLA l)).take 3).any (fun l => l.isAI) = true ∧
    ((passB 0 cxListA).map (fun l => l.isAI)) = [true, true, false, false, false, false, true] ∧
    ((analyzeCode regexState0 cxCode4 ("python")).1.lineAnalysis.map
      (fun l => l.isAI)) = [true, true, false, false, false, false, true] ∧
    ((passB 0 (cxListA.filter (fun l => !isBlankLA l))).map (fun l => l.isAI)) =
      [true, true, true, true] := by
  decide

/-- C8: the single line print("Original:", nums) under the python label
fires the labeled-output and educational-variable-names general rules,
is classified AI and gets confidence above one half. -/
theorem print_original_nums_ai :
    ((analyzeCode regexState0 ("print(\"Original:\", nums)") ("python")).1.lineAnalysis.map
      (fun l => (l.isAI, decide ((1 : ℚ)/2 < l.confidence),
        decide ("Contains labeled output statements typical of AI examples" ∈ l.reasons),
        decide ("Uses educational variable names typical of AI tutorials" ∈ l.reasons)))) =
      [(true, true, true, true)] := by
  decide

/-- Witness for the C5 bounds at a concrete run. -/
theorem analyzeCode_confidence_bounds_witness :
    (wNums ∈ (analyzeCode regexState0 ("nums") ("python")).1.lineAnalysis) ∧
    (((jsTrim wNums.content).isEmpty = true → wNums.confidence = 1/2 ∧ wNums.isAI = false) ∧
     ((jsTrim wNums.content).isEmpty = false →
       1/10 ≤ wNums.confidence ∧ wNums.confidence ≤ 19/20)) :=
  ⟨by decide, analyzeCode_confidence_bounds regexState0 ("nums") ("python") wNums (by decide)⟩

/-- Witness for the C4 amended step at a concrete state. -/
theorem passB_flip_step_witness :
    2 ≤ 2 ∧ isBlankLA wHuman = false ∧ wHuman.isAI = false ∧
    isCreativeHumanCode wHuman.content = false ∧
    passB 2 (wHuman :: [wAI]) =
      (if ([wAI].take 3).any aiAndNonBlank = true then
        { wHuman with
          isAI := true,
          confidence := max wHuman.confidence (3/4),
          reasons := wHuman.reasons ++ ["Part of extended AI-generated code block"] }
      else wHuman) :: passB 0 [wAI] :=
  ⟨by decide, by decide, by decide, by decide,
    passB_flip_step 2 wHuman [wAI] (by decide) (by decide) (by decide) (by decide)⟩

/-- Witness for the C6 classifier formula at a concrete line. -/
theorem analyzeLine_score_spec_witness :
    (jsTrim ("nums = nums")).isEmpty = false ∧
    (((analyzeLine regexState0 ("nums = nums") ("python")).1.isAI = true ↔
      (scoreLine regexState0 (jsTrim ("nums = nums")) ("python")).1.humanScore <
        (scoreLine regexState0 (jsTrim ("nums = nums")) ("python")).1.aiScore) ∧
    (analyzeLine regexState0 ("nums = nums") ("python")).1.confidence =
      min (max (if 0 < (scoreLine regexState0 (jsTrim ("nums = nums")) ("python")).1.aiScore +
            (scoreLine regexState0 (jsTrim ("nums = nums")) ("python")).1.humanScore
          then max (scoreLine regexState0 (jsTrim ("nums = nums")) ("python")).1.aiScore
              (scoreLine regexState0 (jsTrim ("nums = nums")) ("python")).1.humanScore /
            ((scoreLine regexState0 (jsTrim ("nums = nums")) ("python")).1.aiScore +
              (scoreLine regexState0 (jsTrim ("nums = nums")) ("python")).1.humanScore)
          else 1/2) (1/10)) (19/20)) :=
  ⟨by decide, analyzeLine_score_spec regexState0 ("nums = nums") ("python") (by decide)⟩

/-- Witness for the C7 percentage complement at a concrete run. -/
theorem analyzeCode_stats_witness :
    0 < (analyzeCode regexState0 ("nums") ("python")).1.totalLines ∧
    (analyzeCode regexState0 ("nums") ("python")).1.aiPercentage +
      (analyzeCode regexState0 ("nums") ("python")).1.humanPercentage = 100 :=
  ⟨by decide, (analyzeCode_stats regexState0 ("nums") ("python")).2.2.1 (by decide)⟩

/-- Witness for the C9 monotonicity at a concrete run and index. -/
theorem analyzeCode_monotone_witness :
    ((rawLines regexState0 ("python") (splitNl ("nums"))).1)[0]? = some wNums ∧
    ((analyzeCode regexState0 ("nums") ("python")).1.lineAnalysis)[0]? = some wNums ∧
    (wNums.content = wNums.content ∧ wNums.confidence ≤ wNums.confidence ∧
      (wNums.isAI = true → wNums.isAI = true)) :=
  ⟨by decide, by decide,
    analyzeCode_monotone regexState0 ("nums") ("python") 0 wNums wNums (by decide) (by decide)⟩

/-- Witness for the C3 amended block-size bound at a concrete run. -/
theorem detectAIBlocks_min_members_witness :
    wIBlk ∈ detectAIBlocksI (analyzeLinesRefined regexState0 cxCode3 ("python")).1 ∧
    (wIBlk.startLine < wIBlk.endLine ∧
      nonblankAt (analyzeLinesRefined regexState0 cxCode3 ("python")).1 wIBlk.startLine ∧
      nonblankAt (analyzeLinesRefined regexState0 cxCode3 ("python")).1 wIBlk.endLine) :=
  ⟨by decide, detectAIBlocks_min_members
    (analyzeLinesRefined regexState0 cxCode3 ("python")).1 wIBlk (by decide)⟩

/-- Witness for the C10 block soundness at a concrete run. -/
theorem analyzeCode_blocks_ordered_witness :
    wBlk ∈ (analyzeCode regexState0 cxCode3 ("python")).1.aiBlocks ∧
    (1 ≤ wBlk.startLine ∧ wBlk.startLine ≤ wBlk.endLine ∧
      wBlk.endLine ≤ (splitNl cxCode3).length ∧
      nonblankAt (analyzeCode regexState0 cxCode3 ("python")).1.lineAnalysis wBlk.startLine ∧
      nonblankAt (analyzeCode regexState0 cxCode3 ("python")).1.lineAnalysis wBlk.endLine) :=
  ⟨by decide, (analyzeCode_blocks_ordered regexState0 cxCode3 ("python")).1 wBlk (by decide)⟩
